import Mathlib

/-!
Verification of the relay-util load-generation engine.

This file gives a shallow embedding, in Lean 4, of the core of the
commoddity/relay-util repository: the JSON value model used by its
JSON-RPC classifier (`relay/relay.go`), the per-request classification
logic of `SendRelays`, the dispatch pool `runInGoroutines` as a state
transition system, and the result aggregation loop of `log.LogResults`.
Theorems about these definitions settle the specification claims.

Modelling conventions:
- Go machine integers (`int`, `int32`, `int64`) are modelled as `Int`
  (or `Nat` for counts); none of the quantities involved can overflow in
  any input the claims mention.
- JSON numbers are modelled as integers (`Int`); no claim involves a
  floating-point literal.
- `encoding/json` marshalling is modelled by a total serializer over the
  `Json` value type; remarshalling a value that was itself decoded from
  JSON never fails in Go, so the "failed to marshal" branches of the
  source are unreachable in the model and noted where they occur.
-/

namespace RelayUtil

/-- Double-quote character, kept as a named constant so that string
literals in this file never contain a bare quote. -/
def quoteChar : Char := Char.ofNat 34

/-- Backslash character. -/
def backslashChar : Char := Char.ofNat 92

/-- Single-quote (apostrophe) character. -/
def squote : String := String.mk [Char.ofNat 39]

/-- Lower-case hexadecimal digit, as used by Go's `\u00xx` escapes. -/
def hexDigitChar (n : Nat) : Char :=
  if n < 10 then Char.ofNat (48 + n) else Char.ofNat (87 + n)

/-- Escape of a single character inside a JSON string, following Go's
`encoding/json` encoder with its default HTML escaping: quote and
backslash are backslash-escaped, newline, carriage return and tab use
their short escapes, other control characters and the HTML-sensitive
characters lower-than, greater-than and ampersand use `\u00xx`. -/
def escapeChar (c : Char) : String :=
  if c = quoteChar then String.mk [backslashChar, quoteChar]
  else if c = backslashChar then String.mk [backslashChar, Char.ofNat 92]
  else if c = Char.ofNat 10 then String.mk [backslashChar, Char.ofNat 110]
  else if c = Char.ofNat 13 then String.mk [backslashChar, Char.ofNat 114]
  else if c = Char.ofNat 9 then String.mk [backslashChar, Char.ofNat 116]
  else if c.toNat < 32 ∨ c = Char.ofNat 60 ∨ c = Char.ofNat 62 ∨ c = Char.ofNat 38 then
    String.mk ([backslashChar, Char.ofNat 117, Char.ofNat 48, Char.ofNat 48] ++
      [hexDigitChar (c.toNat / 16), hexDigitChar (c.toNat % 16)])
  else String.mk [c]

/-- JSON serialization of a string: quoted, with each character escaped. -/
def serializeStr (s : String) : String :=
  String.mk [quoteChar] ++ String.join (s.data.map escapeChar) ++ String.mk [quoteChar]

/-- JSON values. Numbers are restricted to integers: no claim about this
program involves a non-integer JSON number. -/
inductive Json where
  | null : Json
  | bool (b : Bool) : Json
  | num (n : Int) : Json
  | str (s : String) : Json
  | arr (items : List Json) : Json
  | obj (members : List (String × Json)) : Json

mutual

/-- Serialization of a JSON value to its wire text, modelling Go's
`json.Marshal` on the value shapes this program produces. -/
def Json.serialize : Json → String
  | Json.null => ("null")
  | Json.bool true => ("true")
  | Json.bool false => ("false")
  | Json.num n => toString n
  | Json.str s => serializeStr s
  | Json.arr items => ("[") ++ String.intercalate (",") (serializeItems items) ++ ("]")
  | Json.obj members => ("\x7b") ++ String.intercalate (",") (serializeMembers members) ++ ("\x7d")

/-- Serialization of the items of a JSON array. -/
def serializeItems : List Json → List String
  | [] => []
  | j :: rest => Json.serialize j :: serializeItems rest

/-- Serialization of the members of a JSON object, in field order. -/
def serializeMembers : List (String × Json) → List String
  | [] => []
  | (k, v) :: rest => (serializeStr k ++ (":") ++ Json.serialize v) :: serializeMembers rest

end

/-- JSON-RPC identifier, from `relay/relay.go` lines 19-23: a union of a
string and a number with an explicit discriminant. -/
structure ID where
  string : String
  number : Int
  isNumber : Bool
deriving DecidableEq

/-- JSON-RPC error object, from `relay/relay.go` lines 32-35
(`Code int`, `Message string`, both tagged `omitempty`). -/
structure RelayError where
  code : Int
  message : String
deriving DecidableEq

/-- JSON-RPC response object, from `relay/relay.go` lines 25-30. The Go
field `Result interface{}` holds the decoded JSON value of the `result`
field; a missing or JSON-null `result` decodes to a nil interface, which
is modelled as `Json.null`. -/
structure Response where
  jsonrpc : String
  id : ID
  result : Json
  error : RelayError

/-- Outcome record of one relay, from `relay/relay.go` lines 37-43. -/
structure RelayResult where
  ID : Int
  Err : Bool
  ErrReason : String
  SuccessBody : String
  Latency : Int
deriving DecidableEq

/-- The `IDFromString` constructor of `relay/relay.go` lines 236-238. -/
def IDFromString (id : String) : ID :=
  { string := id, number := 0, isNumber := false }

/-- The `IDFromInt` constructor of `relay/relay.go` lines 241-243. -/
def IDFromInt (id : Int) : ID :=
  { number := id, string := "", isNumber := true }

/-- Decoding of a JSON value into a Go `int` target, modelling
`json.Unmarshal(data, &intID)`: an integer JSON number succeeds, JSON
`null` succeeds while leaving the target unchanged (Go decodes `null`
into any non-pointer target as a no-op without error), and every other
value is an error. -/
def unmarshalIntInto (current : Int) : Json → Except String Int
  | Json.num n => Except.ok n
  | Json.null => Except.ok current
  | _ => Except.error ("cannot unmarshal value into Go value of type int")

/-- Decoding of a JSON value into a Go `string` target, modelling
`json.Unmarshal(data, &stringID)`: a JSON string succeeds and JSON
`null` is a no-op, everything else is an error. -/
def unmarshalStringInto (current : String) : Json → Except String String
  | Json.str s => Except.ok s
  | Json.null => Except.ok current
  | _ => Except.error ("cannot unmarshal value into Go value of type string")

/-- The `ID.UnmarshalJSON` method of `relay/relay.go` lines 246-261,
applied to a fresh (zero-valued) `ID`: first try to decode the data as an
int (setting `isNumber`), then as a string, else fail. The incoming wire
bytes are represented by the parsed JSON value. -/
def ID.UnmarshalJSON (data : Json) : Except String ID :=
  match unmarshalIntInto 0 data with
  | Except.ok intID => Except.ok { string := "", number := intID, isNumber := true }
  | Except.error _ =>
    match unmarshalStringInto "" data with
    | Except.ok stringID => Except.ok { string := stringID, number := 0, isNumber := false }
    | Except.error _ => Except.error (("error unmarshalling ID: ") ++ Json.serialize data)

/-- The `ID.MarshalJSON` method of `relay/relay.go` lines 263-268,
returning the JSON wire value: the number when `isNumber` is set,
otherwise the string. -/
def ID.MarshalJSON (i : ID) : Json :=
  if i.isNumber then Json.num i.number else Json.str i.string

/-- Re-marshalled wire value of a `RelayError`, per Go's struct tags:
`code` is omitted when zero and `message` when empty (`omitempty`). -/
def RelayError.marshalValue (e : RelayError) : Json :=
  Json.obj ((if e.code = 0 then [] else [(("code"), Json.num e.code)]) ++
    (if e.message = "" then [] else [(("message"), Json.str e.message)]))

/-- Re-marshalled wire value of a `Response`, per Go's struct tags:
`jsonrpc` and `id` are always emitted, `result` carries `omitempty` (a
nil interface, here `Json.null`, is dropped), and `error` is always
emitted because `omitempty` never omits a non-pointer struct field. -/
def Response.marshalValue (r : Response) : Json :=
  Json.obj ([(("jsonrpc"), Json.str r.jsonrpc), (("id"), ID.MarshalJSON r.id)] ++
    (match r.result with
      | Json.null => []
      | v => [(("result"), v)]) ++
    [(("error"), RelayError.marshalValue r.error)])

/-- The reason string `fmt.Sprintf("code: %d, message: %s", ...)` of
`relay/relay.go` lines 150 and 197. -/
def codeMsgReason (e : RelayError) : String :=
  ("code: ") ++ toString e.code ++ (", message: ") ++ e.message

/-- The fixed diagnostic reason of `relay/relay.go` lines 169 and 211,
equal to the Go literal "response body is set to 'null'". -/
def nullBodyReason : String :=
  ("response body is set to ") ++ squote ++ ("null") ++ squote

/-- Classification of a single (non-batch) relay, from the `else` branch
of `SendRelays` (`relay/relay.go` lines 178-221). `response` and `err`
are the two returns of `makeJSONRPCReq`; `latency` is the elapsed time
measured right after the call. The source's "failed to marshal response
result to JSON" branch is unreachable here because re-marshalling a
decoded JSON value never fails. -/
def processSingle (currentRelay latency : Int) (response : Option Response)
    (err : Option String) : RelayResult :=
  let result : RelayResult :=
    { ID := currentRelay, Err := false, ErrReason := "", SuccessBody := "", Latency := 0 }
  match err with
  | some e => { result with Err := true, ErrReason := e }
  | none =>
  match response with
  | none => { result with Err := true, ErrReason := ("response is nil") }
  | some response =>
    if response.error.message ≠ "" then
      { result with Err := true, ErrReason := codeMsgReason response.error }
    else
      let responseJSON := Json.serialize response.result
      if responseJSON = ("null") then
        { result with Err := true, ErrReason := nullBodyReason }
      else
        { result with SuccessBody := responseJSON, Latency := latency }

/-- Body of the `for _, response := range responses` loop of the batch
branch of `SendRelays` (`relay/relay.go` lines 134-177), followed by the
marshalling of the accumulated `successfulResponses`. Note that the
source checks `err != nil` inside the loop, so the transport error is
only ever consulted when the response list is non-empty; this quirk is
reproduced exactly. -/
def batchLoop (result : RelayResult) (latency : Int) (err : Option String) :
    List (Option Response) → List Response → RelayResult
  | [], successfulResponses =>
    let responseJSON := Json.serialize (Json.arr (successfulResponses.map Response.marshalValue))
    if responseJSON = ("null") then
      { result with Err := true, ErrReason := nullBodyReason }
    else
      { result with SuccessBody := responseJSON, Latency := latency }
  | response :: rest, successfulResponses =>
    match err with
    | some e => { result with Err := true, ErrReason := e }
    | none =>
    match response with
    | none => { result with Err := true, ErrReason := ("response is nil") }
    | some r =>
      if r.error.message ≠ "" then
        { result with Err := true, ErrReason := codeMsgReason r.error }
      else
        batchLoop result latency err rest (successfulResponses ++ [r])

/-- Classification of a batch relay, from the `if u.IsBatch` branch of
`SendRelays` (`relay/relay.go` lines 128-177). `responses` and `err` are
the two returns of `makeJSONRPCBatchReq`; a nil slice (`none`) ranges as
the empty list, exactly as in Go. -/
def processBatch (currentRelay latency : Int) (responses : Option (List (Option Response)))
    (err : Option String) : RelayResult :=
  batchLoop
    { ID := currentRelay, Err := false, ErrReason := "", SuccessBody := "", Latency := 0 }
    latency err (responses.getD []) []

example : processSingle 1 7 (some ⟨("2.0"), IDFromInt 1, Json.str ("0x10"), ⟨0, ""⟩⟩) none =
    ⟨1, false, "", Json.serialize (Json.str ("0x10")), 7⟩ := by
  rfl

example : processBatch 1 5 none (some ("connection refused")) =
    ⟨1, false, "", ("[]"), 5⟩ := by
  rfl

/-- The `goroutinesConfig` value of `relay/relay.go` lines 73-76. The
`delay` is a `time.Duration`, a signed integer count of nanoseconds. -/
structure GoroutinesConfig where
  goroutines : Int
  delay : Int

/-- The `validateConfig` method of `relay/relay.go` lines 401-409.
`runInGoroutines` calls it first and panics on any error, aborting the
run before the task queue is filled or any worker is started; the panic
is modelled as the `Except.error` branch. -/
def validateConfig (u : GoroutinesConfig) : Except String Unit :=
  if u.goroutines < 1 then Except.error ("goroutines must be greater than 0")
  else if u.delay < 0 then Except.error ("delay must be greater than or equal to 0")
  else Except.ok ()

/-- State of the dispatch pool of `runInGoroutines` (`relay/relay.go`
lines 368-398). Workers are interchangeable, so the state tracks how
many sit in each phase of the worker loop `for range tasks { sem <- true;
jobFunc(); <-sem }`: `idle` workers are between loop iterations (blocked
on the `tasks` channel), `waiting` workers have taken a task token and
are blocked sending into `sem`, `running` workers are inside `jobFunc`,
and `exited` workers have left the loop (possible only once `tasks` is
closed and drained). `tasks` counts the tokens left in the queue,
`permits` the slots of `sem` in use, `counter` the shared atomic
sequence counter incremented at the top of each `jobFunc` invocation,
`completed` the finished invocations, and `outcomes` the `RelayResult`
records sent to `ResultChan`, one per finished invocation. The startup
stagger delay between worker launches only affects timing, never which
states are reachable, so it does not appear in the dynamics. -/
structure PoolState where
  tasks : Nat
  idle : Nat
  waiting : Nat
  running : Nat
  exited : Nat
  permits : Nat
  counter : Nat
  completed : Nat
  outcomes : List RelayResult

/-- Initial pool state: `executions` tokens in the closed task queue and
all `goroutines` workers idle. -/
def initPool (goroutines executions : Nat) : PoolState :=
  { tasks := executions, idle := goroutines, waiting := 0, running := 0, exited := 0,
    permits := 0, counter := 0, completed := 0, outcomes := [] }

/-- One scheduler step of the dispatch pool with `goroutines` workers
and semaphore capacity `goroutines` (the source sizes `sem` with
`config.goroutines`). `takeTask`: an idle worker receives a token from
the non-empty task queue. `beginJob`: a token-holding worker acquires a
semaphore slot and enters `jobFunc`, incrementing the shared sequence
counter. `endJob`: a running worker finishes `jobFunc`, emitting one
outcome record and releasing its slot. `exitWorker`: with the closed
task queue empty, an idle worker's `for range` loop ends. -/
inductive PoolStep (goroutines : Nat) : PoolState → PoolState → Prop
  | takeTask (s : PoolState) : 0 < s.idle → 0 < s.tasks →
      PoolStep goroutines s
        { s with tasks := s.tasks - 1, idle := s.idle - 1, waiting := s.waiting + 1 }
  | beginJob (s : PoolState) : 0 < s.waiting → s.permits < goroutines →
      PoolStep goroutines s
        { s with waiting := s.waiting - 1, running := s.running + 1, permits := s.permits + 1, counter := s.counter + 1 }
  | endJob (s : PoolState) (r : RelayResult) : 0 < s.running →
      PoolStep goroutines s
        { s with running := s.running - 1, idle := s.idle + 1, permits := s.permits - 1, completed := s.completed + 1, outcomes := s.outcomes ++ [r] }
  | exitWorker (s : PoolState) : 0 < s.idle → s.tasks = 0 →
      PoolStep goroutines s
        { s with idle := s.idle - 1, exited := s.exited + 1 }

/-- Reachability of a pool state from the initial state of a run with
`goroutines` workers and `executions` queued jobs. -/
inductive Reaches (goroutines executions : Nat) : PoolState → Prop
  | init : Reaches goroutines executions (initPool goroutines executions)
  | step {s t : PoolState} : Reaches goroutines executions s →
      PoolStep goroutines s t → Reaches goroutines executions t

/-- Inductive invariant of the dispatch pool: tokens still queued plus
jobs in flight plus jobs completed account for all `executions`; the
worker phases partition the `goroutines` workers; the semaphore slots in
use are exactly the running workers and never exceed the capacity; the
sequence counter counts started invocations; one outcome is recorded per
completed invocation; and once any worker has exited the queue is empty
(a worker only exits after the closed queue is drained, and the token
count never grows). -/
def PoolInv (goroutines executions : Nat) (s : PoolState) : Prop :=
  s.tasks + s.waiting + s.running + s.completed = executions ∧
  s.idle + s.waiting + s.running + s.exited = goroutines ∧
  s.permits = s.running ∧
  s.permits ≤ goroutines ∧
  s.counter = s.running + s.completed ∧
  s.outcomes.length = s.completed ∧
  (0 < s.exited → s.tasks = 0)

lemma reaches_inv {goroutines executions : Nat} {s : PoolState}
    (h : Reaches goroutines executions s) : PoolInv goroutines executions s := by
  induction h with
  | init => simp [PoolInv, initPool]
  | step _ hstep ih =>
    obtain ⟨h1, h2, h3, h4, h5, h6, h7⟩ := ih
    cases hstep <;>
      refine ⟨?_, ?_, ?_, ?_, ?_, ?_, ?_⟩ <;>
      simp only [List.length_append, List.length_cons, List.length_nil] <;>
      omega

/-- Accumulator of the `for result := range u.ResultChan` loop of
`log.LogResults` (part_004 lines 53-90): running counts, the two
occurrence maps, and the list of latencies of successful relays. The Go
maps are modelled as total count functions. -/
structure AggState where
  totalRelays : Nat
  successfulRelays : Nat
  failedRelays : Nat
  successBodies : String → Nat
  errorReasons : String → Nat
  latencies : List Int

/-- Empty accumulator, as at part_004 lines 54-58 and 75. -/
def initAgg : AggState :=
  { totalRelays := 0, successfulRelays := 0, failedRelays := 0,
    successBodies := fun _ => 0, errorReasons := fun _ => 0, latencies := [] }

/-- One iteration of the consumption loop (part_004 lines 77-90): every
outcome increments the total, a failed outcome increments the failure
count and its reason's occurrence count, a successful outcome increments
the success count and its body's occurrence count and, when its latency
is non-zero, appends that latency to the sample list. -/
def aggStep (st : AggState) (result : RelayResult) : AggState :=
  let st := { st with totalRelays := st.totalRelays + 1 }
  if result.Err then
    { st with failedRelays := st.failedRelays + 1, errorReasons := fun k => if k = result.ErrReason then st.errorReasons k + 1 else st.errorReasons k }
  else
    let st := { st with successfulRelays := st.successfulRelays + 1, successBodies := fun k => if k = result.SuccessBody then st.successBodies k + 1 else st.successBodies k }
    if result.Latency ≠ 0 then { st with latencies := st.latencies ++ [result.Latency] }
    else st

/-- Aggregation of a full outcome stream, in arrival order. -/
def aggregateResults (results : List RelayResult) : AggState :=
  results.foldl aggStep initAgg

/-- Ascending sort of the latency samples, modelling the
`sort.Slice(latencies, func(i, j int) bool \x7b return latencies[i] <
latencies[j] \x7d)` call of part_004 line 147; on integers any
comparison sort produces the same ascending list. -/
def sortLatencies (latencies : List Int) : List Int :=
  latencies.insertionSort (· ≤ ·)

/-- The p90 computation of part_004 lines 148-156. The source computes
`p90Index := int(float64(len(latencies)) * 0.9)`; for every feasible
slice length n (far below 2^49) that float expression equals ⌊9n/10⌋,
which is how the index is written here. A zero index selects the first
(smallest) sorted sample, otherwise the element at `p90Index - 1`;
an empty sample list leaves `p90Latency` at its zero value. -/
def p90Latency (latencies : List Int) : Int :=
  let sorted := sortLatencies latencies
  if 0 < latencies.length then
    let p90Index := 9 * latencies.length / 10
    if p90Index = 0 then sorted.headD 0
    else sorted.getD (p90Index - 1) 0
  else 0

example : p90Latency [42] = 42 := by decide
example : p90Latency [100, 20, 30, 40, 50, 60, 70, 80, 90, 10] = 90 := by decide

/-- Latency bookkeeping of one aggregation step: the sample list grows
by the outcome's latency exactly for a successful outcome with non-zero
latency. -/
lemma aggStep_latencies (st : AggState) (r : RelayResult) :
    (aggStep st r).latencies =
      st.latencies ++ (if !r.Err && r.Latency != 0 then [r.Latency] else []) := by
  unfold aggStep
  by_cases hErr : r.Err <;> by_cases hLat : r.Latency = 0 <;>
    simp [hErr, hLat]

/-- Counter bookkeeping of one aggregation step. -/
lemma aggStep_counts (st : AggState) (r : RelayResult) :
    (aggStep st r).totalRelays = st.totalRelays + 1 ∧
    (aggStep st r).successfulRelays + (aggStep st r).failedRelays =
      st.successfulRelays + st.failedRelays + 1 := by
  unfold aggStep
  by_cases hErr : r.Err <;> by_cases hLat : r.Latency = 0 <;>
    simp [hErr, hLat] <;> omega

lemma foldl_agg_counts (results : List RelayResult) :
    ∀ st : AggState,
      (results.foldl aggStep st).totalRelays = st.totalRelays + results.length ∧
      (results.foldl aggStep st).successfulRelays + (results.foldl aggStep st).failedRelays =
        st.successfulRelays + st.failedRelays + results.length := by
  induction results with
  | nil => intro st; simp
  | cons r rest ih =>
    intro st
    obtain ⟨ht, hs⟩ := ih (aggStep st r)
    obtain ⟨ht1, hs1⟩ := aggStep_counts st r
    simp only [List.foldl_cons, List.length_cons]
    omega

lemma foldl_agg_latencies (results : List RelayResult) :
    ∀ st : AggState,
      (results.foldl aggStep st).latencies =
        st.latencies ++ (results.filter (fun r => !r.Err && r.Latency != 0)).map RelayResult.Latency := by
  induction results with
  | nil => intro st; simp
  | cons r rest ih =>
    intro st
    simp only [List.foldl_cons, ih (aggStep st r), aggStep_latencies st r, List.filter_cons]
    by_cases h : (!r.Err && r.Latency != 0) = true <;> simp [h]

/-- Total outcome count of the aggregator equals the stream length. -/
lemma aggregate_total (results : List RelayResult) :
    (aggregateResults results).totalRelays = results.length := by
  simpa [initAgg] using (foldl_agg_counts results initAgg).1

/-- JSON insignificant whitespace (RFC 8259, as accepted by Go's
`encoding/json` scanner): space, tab, newline, carriage return. -/
def isJsonWS (c : Char) : Bool :=
  c = Char.ofNat 32 || c = Char.ofNat 9 || c = Char.ofNat 10 || c = Char.ofNat 13

/-- Drop leading JSON whitespace. -/
def skipWS (cs : List Char) : List Char :=
  cs.dropWhile isJsonWS

/-- Hexadecimal digit test for `\uXXXX` escapes. -/
def isHexChar (c : Char) : Bool :=
  c.isDigit || (97 ≤ c.toNat && c.toNat ≤ 102) || (65 ≤ c.toNat && c.toNat ≤ 70)

/-- Scan the remainder of a JSON string after the opening quote,
returning the input after the closing quote; fuel-driven, with fuel at
least the input length plus one. -/
def scanStringRest : Nat → List Char → Option (List Char)
  | 0, _ => none
  | _ + 1, [] => none
  | fuel + 1, c :: rest =>
    if c = quoteChar then some rest
    else if c = backslashChar then
      match rest with
      | [] => none
      | e :: rest2 =>
        if e = quoteChar || e = backslashChar || e = Char.ofNat 47 || e = Char.ofNat 98 ||
            e = Char.ofNat 102 || e = Char.ofNat 110 || e = Char.ofNat 114 || e = Char.ofNat 116 then
          scanStringRest fuel rest2
        else if e = Char.ofNat 117 then
          match rest2 with
          | h1 :: h2 :: h3 :: h4 :: rest6 =>
            if isHexChar h1 && isHexChar h2 && isHexChar h3 && isHexChar h4 then
              scanStringRest fuel rest6
            else none
          | _ => none
        else none
    else if c.toNat < 32 then none
    else scanStringRest fuel rest

/-- Scan the integer part of a JSON number (after any minus sign):
either a single zero or a nonzero digit followed by digits. -/
def scanIntPart : List Char → Option (List Char)
  | [] => none
  | c :: rest =>
    if c = Char.ofNat 48 then some rest
    else if c.isDigit then some (rest.dropWhile Char.isDigit)
    else none

/-- Scan an optional fraction part. -/
def scanFracPart : List Char → Option (List Char)
  | [] => some []
  | c :: rest =>
    if c = Char.ofNat 46 then
      match rest with
      | d :: rest2 => if d.isDigit then some (rest2.dropWhile Char.isDigit) else none
      | [] => none
    else some (c :: rest)

/-- Scan an optional exponent part. -/
def scanExpPart : List Char → Option (List Char)
  | [] => some []
  | c :: rest =>
    if c = Char.ofNat 101 || c = Char.ofNat 69 then
      match rest with
      | d :: rest2 =>
        if d = Char.ofNat 43 || d = Char.ofNat 45 then
          match rest2 with
          | d2 :: rest3 => if d2.isDigit then some (rest3.dropWhile Char.isDigit) else none
          | [] => none
        else if d.isDigit then some (rest2.dropWhile Char.isDigit)
        else none
      | [] => none
    else some (c :: rest)

/-- Scan a JSON number starting at the current position. -/
def scanNumber (cs : List Char) : Option (List Char) :=
  let cs := match cs with
    | c :: rest => if c = Char.ofNat 45 then rest else c :: rest
    | [] => []
  match scanIntPart cs with
  | none => none
  | some rest =>
    match scanFracPart rest with
    | none => none
    | some rest2 => scanExpPart rest2

mutual

/-- Scan one JSON value, returning the rest of the input; the fuel
strictly decreases on every nested call, so fuel `2 * (length + 1)` is
always sufficient. Together with `jsonValid` this models Go's
`json.Valid`. -/
def scanValue : Nat → List Char → Option (List Char)
  | 0, _ => none
  | _ + 1, [] => none
  | fuel + 1, c :: rest =>
    if c = quoteChar then scanStringRest (rest.length + 1) rest
    else if c = Char.ofNat 123 then scanMembers fuel (skipWS rest)
    else if c = ('[') then scanItems fuel (skipWS rest)
    else
      match c :: rest with
      | ('n') :: ('u') :: ('l') :: ('l') :: rest4 => some rest4
      | ('t') :: ('r') :: ('u') :: ('e') :: rest4 => some rest4
      | ('f') :: ('a') :: ('l') :: ('s') :: ('e') :: rest5 => some rest5
      | cs => if c = Char.ofNat 45 || c.isDigit then scanNumber cs else none

/-- Scan the items of a JSON array after the opening bracket (with
leading whitespace already skipped). -/
def scanItems : Nat → List Char → Option (List Char)
  | 0, _ => none
  | _ + 1, [] => none
  | fuel + 1, c :: rest =>
    if c = (']') then some rest
    else
      match scanValue fuel (c :: rest) with
      | none => none
      | some rest2 => scanItemsTail fuel (skipWS rest2)

/-- Scan an array continuation: either a comma and another item, or the
closing bracket. -/
def scanItemsTail : Nat → List Char → Option (List Char)
  | 0, _ => none
  | _ + 1, [] => none
  | fuel + 1, c :: rest =>
    if c = (']') then some rest
    else if c = (',') then
      match scanValue fuel (skipWS rest) with
      | none => none
      | some rest2 => scanItemsTail fuel (skipWS rest2)
    else none

/-- Scan the members of a JSON object after the opening brace (with
leading whitespace already skipped). -/
def scanMembers : Nat → List Char → Option (List Char)
  | 0, _ => none
  | _ + 1, [] => none
  | fuel + 1, c :: rest =>
    if c = Char.ofNat 125 then some rest
    else if c = quoteChar then
      match scanStringRest (rest.length + 1) rest with
      | none => none
      | some rest2 =>
        match skipWS rest2 with
        | (':') :: rest3 =>
          match scanValue fuel (skipWS rest3) with
          | none => none
          | some rest4 => scanMembersTail fuel (skipWS rest4)
        | _ => none
    else none

/-- Scan an object continuation: either a comma and another member, or
the closing brace. -/
def scanMembersTail : Nat → List Char → Option (List Char)
  | 0, _ => none
  | _ + 1, [] => none
  | fuel + 1, c :: rest =>
    if c = Char.ofNat 125 then some rest
    else if c = (',') then
      match skipWS rest with
      | c2 :: rest2 =>
        if c2 = quoteChar then
          match scanStringRest (rest2.length + 1) rest2 with
          | none => none
          | some rest3 =>
            match skipWS rest3 with
            | (':') :: rest4 =>
              match scanValue fuel (skipWS rest4) with
              | none => none
              | some rest5 => scanMembersTail fuel (skipWS rest5)
            | _ => none
        else none
      | [] => none
    else none

end

/-- Validity of a byte string as one complete JSON value, modelling
Go's `json.Valid`. -/
def jsonValid (s : String) : Bool :=
  match scanValue (2 * (s.length + 1)) (skipWS s.data) with
  | some rest => (skipWS rest).isEmpty
  | none => false

example : jsonValid ("[1, 2]") = true := by decide
example : jsonValid ("[") = false := by decide
example : jsonValid ("\x7b\"a\":-1.5e3\x7d") = true := by decide
example : jsonValid ("01") = false := by decide

/-- Whitespace as trimmed by Go's `strings.TrimSpace` (`unicode.IsSpace`),
restricted to the Latin-1 range: tab, newline, vertical tab, form feed,
carriage return, space, next line and no-break space. -/
def isSpaceGo (c : Char) : Bool :=
  (9 ≤ c.toNat && c.toNat ≤ 13) || c = Char.ofNat 32 || c = Char.ofNat 133 || c = Char.ofNat 160

/-- Go's `strings.TrimSpace`: drop leading and trailing whitespace. -/
def trimSpace (s : String) : String :=
  String.mk (((s.data.dropWhile isSpaceGo).reverse.dropWhile isSpaceGo).reverse)

/-- Go's `strings.HasPrefix(s, "[")`: the first character is an opening
bracket. -/
def startsWithBracket (s : String) : Bool :=
  match s.data with
  | c :: _ => c = ('[')
  | [] => false

/-- The `IsBatch` field initializer of `NewRelayUtil` (`relay/relay.go`
line 92): `json.Valid(config.Body) && strings.HasPrefix(strings.TrimSpace(
string(config.Body)), "[")`. -/
def isBatchBody (body : String) : Bool :=
  jsonValid body && startsWithBracket (trimSpace body)

example : isBatchBody ("  [1, 2]") = true := by decide
example : isBatchBody ("[") = false := by decide

/-- Configuration checks crossed before any dispatch, in program order:
`main.go` line 88 rejects `executions == 0`; `NewRelayUtil`
(`relay/relay.go` line 83) runs `make(chan RelayResult, config.Executions)`,
which panics with "makechan: size out of range" for a negative capacity
(Go language specification); and `runInGoroutines` panics unless
`validateConfig` passes. An `Except.error` models the abort (`os.Exit`
or panic); only `Except.ok` lets the dispatch pool start. -/
def programValidate (executions goroutines delay : Int) : Except String Unit :=
  if executions = 0 then Except.error ("Executions must be greater than 0")
  else if executions < 0 then Except.error ("makechan: size out of range")
  else validateConfig { goroutines := goroutines, delay := delay }

/-- A pool state arises in a run of the program only when every
configuration check passed and the state is reachable in the dispatch
pool's transition system. -/
def ProgramReaches (executions goroutines delay : Int) (s : PoolState) : Prop :=
  programValidate executions goroutines delay = Except.ok () ∧
  Reaches goroutines.toNat executions.toNat s

lemma codeMsgReason_ne_nullBodyReason (e : RelayError) :
    codeMsgReason e ≠ nullBodyReason := by
  intro h
  have h2 : (codeMsgReason e).data.head? = nullBodyReason.data.head? := by rw [h]
  unfold codeMsgReason nullBodyReason squote at h2
  simp only [String.data_append] at h2
  simp [List.head?_append] at h2

lemma serialize_arr_ne_null (items : List Json) :
    Json.serialize (Json.arr items) ≠ ("null") := by
  intro h
  have h2 : (Json.serialize (Json.arr items)).data.head? = ("null" : String).data.head? := by
    rw [h]
  simp only [Json.serialize, String.data_append] at h2
  simp [List.head?_append] at h2

/-- C3: for a single (non-batch) JSON-RPC response, classification
fails with the reason `code: <code>, message: <message>` exactly when
the error field's message is non-empty; with an empty error message and
a result that does not serialize to the literal `null`, the outcome is
a success whose body is the result's JSON serialization (the quoted
serialization, for a string result such as `"0x10"`); and a JSON-null
result classifies as a failure with the fixed null-body reason. The
last two conjuncts check the spec's concrete examples. -/
theorem single_classification_correct (r : Response) (currentRelay latency : Int) :
    (((processSingle currentRelay latency (some r) none).Err = true ∧
      (processSingle currentRelay latency (some r) none).ErrReason = codeMsgReason r.error) ↔
      r.error.message ≠ "") ∧
    (r.error.message = "" → Json.serialize r.result ≠ ("null") →
      processSingle currentRelay latency (some r) none =
        ⟨currentRelay, false, "", Json.serialize r.result, latency⟩) ∧
    (r.error.message = "" → r.result = Json.null →
      processSingle currentRelay latency (some r) none =
        ⟨currentRelay, true, nullBodyReason, "", 0⟩) ∧
    processSingle currentRelay latency (some ⟨("2.0"), IDFromInt 1, Json.str ("0x10"), ⟨0, ""⟩⟩) none =
      ⟨currentRelay, false, "", String.mk [quoteChar] ++ ("0x10") ++ String.mk [quoteChar], latency⟩ ∧
    (processSingle currentRelay latency
        (some ⟨("2.0"), IDFromInt 1, Json.null, ⟨-32600, ("bad request")⟩⟩) none).ErrReason =
      ("code: -32600, message: bad request") := by
  refine ⟨?_, ?_, ?_, rfl, rfl⟩
  · by_cases hm : r.error.message = ""
    · by_cases hnull : Json.serialize r.result = ("null")
      · have hne := Ne.symm (codeMsgReason_ne_nullBodyReason r.error)
        simp [processSingle, hm, hnull, hne]
      · simp [processSingle, hm, hnull]
    · simp [processSingle, hm]
  · intro hm hnull
    simp [processSingle, hm, hnull]
  · intro hm hnull
    simp [processSingle, hm, hnull, Json.serialize]

theorem single_classification_correct_witness :
    processSingle 2 9 (some ⟨("2.0"), IDFromInt 1, Json.null, ⟨0, ""⟩⟩) none =
      ⟨2, true, nullBodyReason, "", 0⟩ ∧
    processSingle 2 9 (some ⟨("2.0"), IDFromInt 1, Json.str ("0x10"), ⟨0, ""⟩⟩) none =
      ⟨2, false, "", Json.serialize (Json.str ("0x10")), 9⟩ :=
  ⟨(single_classification_correct ⟨("2.0"), IDFromInt 1, Json.null, ⟨0, ""⟩⟩ 2 9).2.2.1 rfl rfl,
   (single_classification_correct ⟨("2.0"), IDFromInt 1, Json.str ("0x10"), ⟨0, ""⟩⟩ 2 9).2.1 rfl
     (by decide)⟩

lemma batchLoop_no_err (currentRelay latency : Int) :
    ∀ (rs : List Response) (acc : List Response),
      (∀ r0 : Response, rs.find? (fun r => r.error.message != "") = some r0 →
        batchLoop ⟨currentRelay, false, "", "", 0⟩ latency none (rs.map some) acc =
          ⟨currentRelay, true, codeMsgReason r0.error, "", 0⟩) ∧
      (rs.find? (fun r => r.error.message != "") = none →
        batchLoop ⟨currentRelay, false, "", "", 0⟩ latency none (rs.map some) acc =
          ⟨currentRelay, false, "",
            Json.serialize (Json.arr ((acc ++ rs).map Response.marshalValue)), latency⟩) := by
  intro rs
  induction rs with
  | nil =>
    intro acc
    refine ⟨by simp, fun _ => ?_⟩
    simp only [List.map_nil, batchLoop, List.append_nil]
    rw [if_neg (serialize_arr_ne_null _)]
  | cons r rest ih =>
    intro acc
    by_cases hm : r.error.message = ""
    · constructor
      · intro r0 hfind
        simp [hm] at hfind
        have hrec := (ih (acc ++ [r])).1 r0 hfind
        simpa [batchLoop, hm] using hrec
      · intro hfind
        simp [hm] at hfind
        have hfind2 : List.find? (fun r => r.error.message != "") rest = none := by
          rw [List.find?_eq_none]
          intro x hx
          simp [hfind x hx]
        have hrec := (ih (acc ++ [r])).2 hfind2
        simp only [List.append_assoc, List.singleton_append] at hrec
        simpa [batchLoop, hm] using hrec
    · constructor
      · intro r0 hfind
        rw [List.find?_cons_of_pos _ (by simp [hm])] at hfind
        cases hfind
        simp [batchLoop, hm]
      · intro hfind
        rw [List.find?_cons_of_pos _ (by simp [hm])] at hfind
        cases hfind

/-- C4 (amended): in batch mode with the transport call succeeded, if
any response item carries a non-empty error message the whole outcome is
a single failure carrying the first such item's `code: ..., message: ...`
text (no partial success); if no item carries an error the outcome is a
success whose body is the full re-marshalled response items — not just
their `result` fields — serialized as one JSON array. -/
theorem batch_all_or_nothing (responses : List Response) (currentRelay latency : Int) :
    (∀ r0 : Response, responses.find? (fun r => r.error.message != "") = some r0 →
      processBatch currentRelay latency (some (responses.map some)) none =
        ⟨currentRelay, true, codeMsgReason r0.error, "", 0⟩) ∧
    (responses.find? (fun r => r.error.message != "") = none →
      processBatch currentRelay latency (some (responses.map some)) none =
        ⟨currentRelay, false, "",
          Json.serialize (Json.arr (responses.map Response.marshalValue)), latency⟩) := by
  have h := batchLoop_no_err currentRelay latency responses []
  simpa [processBatch] using h

theorem batch_all_or_nothing_witness :
    processBatch 1 5 (some [some ⟨("2.0"), IDFromInt 1, Json.str ("0x1"), ⟨0, ""⟩⟩,
        some ⟨("2.0"), IDFromInt 2, Json.null, ⟨-32000, ("oops")⟩⟩,
        some ⟨("2.0"), IDFromInt 3, Json.str ("0x2"), ⟨0, ""⟩⟩]) none =
      ⟨1, true, ("code: -32000, message: oops"), "", 0⟩ ∧
    processBatch 1 5 (some [some ⟨("2.0"), IDFromInt 1, Json.str ("0x1"), ⟨0, ""⟩⟩]) none =
      ⟨1, false, "",
        Json.serialize (Json.arr (([⟨("2.0"), IDFromInt 1, Json.str ("0x1"), ⟨0, ""⟩⟩] : List Response).map Response.marshalValue)), 5⟩ := by
  constructor
  · exact (batch_all_or_nothing [⟨("2.0"), IDFromInt 1, Json.str ("0x1"), ⟨0, ""⟩⟩,
      ⟨("2.0"), IDFromInt 2, Json.null, ⟨-32000, ("oops")⟩⟩,
      ⟨("2.0"), IDFromInt 3, Json.str ("0x2"), ⟨0, ""⟩⟩] 1 5).1
      ⟨("2.0"), IDFromInt 2, Json.null, ⟨-32000, ("oops")⟩⟩ rfl
  · exact (batch_all_or_nothing [⟨("2.0"), IDFromInt 1, Json.str ("0x1"), ⟨0, ""⟩⟩] 1 5).2 rfl

/-- C4 counterexample: for the error-free single-item batch response
`[{"jsonrpc":"2.0","id":1,"result":"0x1"}]` the outcome is a success,
but its body is the re-marshalled response objects (including the
`jsonrpc`, `id` and empty `error` fields), not the items' `result`
values serialized as one JSON array, which would be `["0x1"]`. -/
theorem batch_success_body_counterexample :
    (processBatch 1 5 (some [some ⟨("2.0"), IDFromInt 1, Json.str ("0x1"), ⟨0, ""⟩⟩]) none).Err = false ∧
    (processBatch 1 5 (some [some ⟨("2.0"), IDFromInt 1, Json.str ("0x1"), ⟨0, ""⟩⟩]) none).SuccessBody =
      ("[\x7b\"jsonrpc\":\"2.0\",\"id\":1,\"result\":\"0x1\",\"error\":\x7b\x7d\x7d]") ∧
    (processBatch 1 5 (some [some ⟨("2.0"), IDFromInt 1, Json.str ("0x1"), ⟨0, ""⟩⟩]) none).SuccessBody ≠
      Json.serialize (Json.arr [Json.str ("0x1")]) := by
  refine ⟨rfl, rfl, by decide⟩

/-- C5: the code contradicts the claim that every transport failure
yields a failure outcome with the elapsed latency. In batch mode a
transport failure returns a nil response slice, the `err != nil` check
sits inside the loop over that (empty) slice and is never reached, so
the outcome is recorded as a SUCCESS with body `[]`; and in single mode
the failure outcome is produced with the correct reason but its latency
field is left at the 0 sentinel rather than the elapsed time (here 5). -/
theorem transport_failure_divergence :
    processBatch 1 5 none (some ("connection refused")) = ⟨1, false, "", ("[]"), 5⟩ ∧
    processSingle 1 5 none (some ("request timeout")) = ⟨1, true, ("request timeout"), "", 0⟩ :=
  ⟨rfl, rfl⟩

/-- C7 counterexample: a JSON `null` in the id position is not a hard
error — Go's decode of `null` into the int target is a silent no-op, so
the first `json.Unmarshal` succeeds, `isNumber` is set, and the id
re-serializes as the number 0. -/
theorem id_null_accepted_counterexample :
    ID.UnmarshalJSON Json.null = Except.ok ⟨"", 0, true⟩ ∧
    ID.MarshalJSON ⟨"", 0, true⟩ = Json.num 0 :=
  ⟨rfl, rfl⟩

/-- C7 (amended): a number id parses and re-emits as that number and a
string id as that string; JSON `null` in the id position is accepted
(decoding `null` is a no-op) and re-emits as the number 0; every other
JSON type (booleans, arrays, objects) is a hard parse error. -/
theorem id_wire_type_roundtrip :
    (∀ n : Int, ID.UnmarshalJSON (Json.num n) = Except.ok ⟨"", n, true⟩ ∧
      ID.MarshalJSON ⟨"", n, true⟩ = Json.num n) ∧
    (∀ s : String, ID.UnmarshalJSON (Json.str s) = Except.ok ⟨s, 0, false⟩ ∧
      ID.MarshalJSON ⟨s, 0, false⟩ = Json.str s) ∧
    ID.UnmarshalJSON Json.null = Except.ok ⟨"", 0, true⟩ ∧
    (∀ b : Bool, ∃ msg, ID.UnmarshalJSON (Json.bool b) = Except.error msg) ∧
    (∀ items : List Json, ∃ msg, ID.UnmarshalJSON (Json.arr items) = Except.error msg) ∧
    (∀ members : List (String × Json), ∃ msg, ID.UnmarshalJSON (Json.obj members) = Except.error msg) := by
  refine ⟨fun n => ⟨rfl, rfl⟩, fun s => ⟨rfl, rfl⟩, rfl, fun b => ⟨_, rfl⟩,
    fun items => ⟨_, rfl⟩, fun members => ⟨_, rfl⟩⟩

/-- C9 counterexample: the body `[` starts with a bracket after
trimming, yet batch mode is NOT triggered, because the `IsBatch`
initializer additionally requires `json.Valid(body)` and `[` alone is
not valid JSON. -/
theorem batch_detection_counterexample :
    startsWithBracket (trimSpace ("[")) = true ∧ isBatchBody ("[") = false := by
  exact ⟨by decide, by decide⟩

/-- C9 (amended): batch mode is triggered exactly when the body is
valid JSON AND its whitespace-trimmed text starts with `[` — the
leading-bracket heuristic is combined with a full JSON validity check,
not used alone. The concrete conjuncts exercise both conjuncts of the
trigger. -/
theorem batch_detection :
    (∀ body : String, isBatchBody body = true ↔
      (jsonValid body = true ∧ startsWithBracket (trimSpace body) = true)) ∧
    isBatchBody ("  [1, 2]") = true ∧
    isBatchBody ("\x7b\"a\":1\x7d") = false ∧
    isBatchBody ("[1, 2]") = true := by
  refine ⟨fun body => ?_, by decide, by decide, by decide⟩
  simp [isBatchBody]

/-- C8: in every reachable state of the dispatch pool's transition
system, the number of concurrently executing job invocations is bounded
by the configured worker count: the semaphore of capacity `goroutines`
gates entry into `jobFunc`, so the running count never exceeds it,
regardless of the number of queued executions. -/
theorem concurrency_bound (goroutines executions : Nat) (s : PoolState)
    (h : Reaches goroutines executions s) : s.running ≤ goroutines := by
  obtain ⟨_, _, h3, h4, _, _, _⟩ := reaches_inv h
  omega

theorem concurrency_bound_witness :
    Reaches 1 2 (⟨1, 0, 0, 1, 0, 1, 1, 0, []⟩ : PoolState) ∧
    (⟨1, 0, 0, 1, 0, 1, 1, 0, []⟩ : PoolState).running ≤ 1 := by
  have h : Reaches 1 2 (⟨1, 0, 0, 1, 0, 1, 1, 0, []⟩ : PoolState) :=
    Reaches.step
      (Reaches.step Reaches.init (PoolStep.takeTask _ (by decide) (by decide)))
      (PoolStep.beginJob _ (by decide) (by decide))
  exact ⟨h, concurrency_bound 1 2 _ h⟩

/-- C1: for any valid configuration with `executions = N` (N at least 1)
and at least one worker, when the dispatch pool terminates (every worker
has exited, which is when `runInGoroutines` returns from `wg.Wait()`)
the job function has been invoked exactly N times: N invocations have
completed, the shared sequence counter's final value is N, and the
aggregator consuming the emitted outcome stream counts exactly N total
outcomes. The worker count (beyond being at least 1) and the stagger
delay (absent from the dynamics, it only shifts timing) play no role. -/
theorem dispatch_completes_all_executions (goroutines executions : Nat) (s : PoolState)
    (hg : 1 ≤ goroutines) (_hx : 1 ≤ executions)
    (hreach : Reaches goroutines executions s)
    (hdone : s.exited = goroutines) :
    s.completed = executions ∧ s.counter = executions ∧
    (aggregateResults s.outcomes).totalRelays = executions := by
  obtain ⟨h1, h2, h3, h4, h5, h6, h7⟩ := reaches_inv hreach
  have htasks : s.tasks = 0 := h7 (by omega)
  refine ⟨by omega, by omega, ?_⟩
  rw [aggregate_total]
  omega

theorem dispatch_completes_all_executions_witness :
    Reaches 1 1 (⟨0, 0, 0, 0, 1, 0, 1, 1, [⟨1, false, "", ("ok"), 3⟩]⟩ : PoolState) ∧
    ((⟨0, 0, 0, 0, 1, 0, 1, 1, [⟨1, false, "", ("ok"), 3⟩]⟩ : PoolState).completed = 1 ∧
      (⟨0, 0, 0, 0, 1, 0, 1, 1, [⟨1, false, "", ("ok"), 3⟩]⟩ : PoolState).counter = 1 ∧
      (aggregateResults (⟨0, 0, 0, 0, 1, 0, 1, 1, [⟨1, false, "", ("ok"), 3⟩]⟩ : PoolState).outcomes).totalRelays = 1) := by
  have h : Reaches 1 1 (⟨0, 0, 0, 0, 1, 0, 1, 1, [⟨1, false, "", ("ok"), 3⟩]⟩ : PoolState) :=
    Reaches.step
      (Reaches.step
        (Reaches.step
          (Reaches.step Reaches.init (PoolStep.takeTask _ (by decide) (by decide)))
          (PoolStep.beginJob _ (by decide) (by decide)))
        (PoolStep.endJob _ ⟨1, false, "", ("ok"), 3⟩ (by decide)))
      (PoolStep.exitWorker _ (by decide) (by decide))
  exact ⟨h, dispatch_completes_all_executions 1 1 _ (by decide) (by decide) h rfl⟩

/-- C2: every configuration with `executions < 1`, worker count below 1,
or negative delay is rejected before any dispatch: one of the program's
pre-dispatch checks (the `executions == 0` check in `main`, the panic of
`make(chan RelayResult, n)` on a negative capacity in `NewRelayUtil`, or
`validateConfig` inside `runInGoroutines`) aborts the run, and no state
of the dispatch pool — hence no job invocation, no outcome, and no
network call, which only a running job performs — is ever reached. -/
theorem config_error_aborts_run (executions goroutines delay : Int)
    (h : executions < 1 ∨ goroutines < 1 ∨ delay < 0) :
    (∃ msg, programValidate executions goroutines delay = Except.error msg) ∧
    ∀ s : PoolState, ¬ ProgramReaches executions goroutines delay s := by
  have hne : programValidate executions goroutines delay ≠ Except.ok () := by
    intro hok
    unfold programValidate validateConfig at hok
    rcases h with hc | hc | hc <;> split_ifs at hok <;> simp_all <;> omega
  constructor
  · cases hv : programValidate executions goroutines delay with
    | ok u => cases u; exact absurd hv hne
    | error msg => exact ⟨msg, rfl⟩
  · intro s hs
    exact hne hs.1

theorem config_error_aborts_run_witness :
    ((5 : Int) < 1 ∨ (0 : Int) < 1 ∨ (0 : Int) < 0) ∧
    ((∃ msg, programValidate 5 0 0 = Except.error msg) ∧
      ∀ s : PoolState, ¬ ProgramReaches 5 0 0 s) :=
  ⟨Or.inr (Or.inl (by decide)),
   config_error_aborts_run 5 0 0 (Or.inr (Or.inl (by decide)))⟩

/-- C10: every consumed outcome increments exactly one of the success or
failure counters, so the aggregator always satisfies
`successfulRelays + failedRelays = totalRelays`, and when at least one
outcome was consumed the success rate plus the failure rate (each
computed as `count / total * 100`) equals exactly 100 in exact rational
arithmetic. -/
theorem success_failure_partition (results : List RelayResult) :
    (aggregateResults results).successfulRelays + (aggregateResults results).failedRelays =
      (aggregateResults results).totalRelays ∧
    (0 < (aggregateResults results).totalRelays →
      ((aggregateResults results).successfulRelays : Rat) /
          ((aggregateResults results).totalRelays : Rat) * 100 +
        ((aggregateResults results).failedRelays : Rat) /
          ((aggregateResults results).totalRelays : Rat) * 100 = 100) := by
  obtain ⟨ht, hs⟩ := foldl_agg_counts results initAgg
  have hsum : (aggregateResults results).successfulRelays +
      (aggregateResults results).failedRelays = (aggregateResults results).totalRelays := by
    simp only [aggregateResults, initAgg] at *
    omega
  refine ⟨hsum, fun hpos => ?_⟩
  have hts : ((aggregateResults results).totalRelays : Rat) ≠ 0 := by
    exact_mod_cast Nat.pos_iff_ne_zero.mp hpos
  have hcast : ((aggregateResults results).successfulRelays : Rat) +
      ((aggregateResults results).failedRelays : Rat) =
      ((aggregateResults results).totalRelays : Rat) := by
    exact_mod_cast hsum
  field_simp
  linarith

theorem success_failure_partition_witness :
    0 < (aggregateResults [⟨1, false, "", ("ok"), 3⟩, ⟨2, true, ("boom"), "", 0⟩]).totalRelays ∧
    ((aggregateResults [⟨1, false, "", ("ok"), 3⟩, ⟨2, true, ("boom"), "", 0⟩]).successfulRelays +
        (aggregateResults [⟨1, false, "", ("ok"), 3⟩, ⟨2, true, ("boom"), "", 0⟩]).failedRelays =
      (aggregateResults [⟨1, false, "", ("ok"), 3⟩, ⟨2, true, ("boom"), "", 0⟩]).totalRelays) ∧
    ((aggregateResults [⟨1, false, "", ("ok"), 3⟩, ⟨2, true, ("boom"), "", 0⟩]).successfulRelays : Rat) /
        ((aggregateResults [⟨1, false, "", ("ok"), 3⟩, ⟨2, true, ("boom"), "", 0⟩]).totalRelays : Rat) * 100 +
      ((aggregateResults [⟨1, false, "", ("ok"), 3⟩, ⟨2, true, ("boom"), "", 0⟩]).failedRelays : Rat) /
        ((aggregateResults [⟨1, false, "", ("ok"), 3⟩, ⟨2, true, ("boom"), "", 0⟩]).totalRelays : Rat) * 100 = 100 :=
  ⟨by decide,
   (success_failure_partition [⟨1, false, "", ("ok"), 3⟩, ⟨2, true, ("boom"), "", 0⟩]).1,
   (success_failure_partition [⟨1, false, "", ("ok"), 3⟩, ⟨2, true, ("boom"), "", 0⟩]).2 (by decide)⟩

/-- C6: the aggregator's latency sample list is exactly the latencies of
the successful outcomes with non-zero latency, in arrival order; p90 is
nearest-rank on the ascending sort with index ⌊0.9 × count⌋ (the
source's `int(float64(n) * 0.9)`, equal to ⌊9n/10⌋ for every feasible
length): a zero index selects the smallest sample, any other index
selects the element at position index - 1 of the ascending sort; and in
particular p90 of the single sample [42] is 42, and p90 of the ten
samples [10, 20, ..., 100] is 90. -/
theorem latency_p90_nearest_rank :
    (∀ results : List RelayResult,
      (aggregateResults results).latencies =
        (results.filter (fun r => !r.Err && r.Latency != 0)).map RelayResult.Latency) ∧
    (∀ lats : List Int, lats ≠ [] → 9 * lats.length / 10 = 0 →
      p90Latency lats ∈ lats ∧ ∀ x ∈ lats, p90Latency lats ≤ x) ∧
    (∀ lats : List Int, 9 * lats.length / 10 ≠ 0 →
      ∃ sorted : List Int, sorted.Perm lats ∧ sorted.Sorted (· ≤ ·) ∧
        p90Latency lats = sorted.getD (9 * lats.length / 10 - 1) 0) ∧
    p90Latency [42] = 42 ∧
    p90Latency [10, 20, 30, 40, 50, 60, 70, 80, 90, 100] = 90 := by
  refine ⟨?_, ?_, ?_, by decide, by decide⟩
  · intro results
    simpa [aggregateResults, initAgg] using foldl_agg_latencies results initAgg
  · intro lats hne hidx
    have hlen : 0 < lats.length := List.length_pos.mpr hne
    have hperm : (sortLatencies lats).Perm lats := List.perm_insertionSort _ lats
    have hsorted : (sortLatencies lats).Sorted (· ≤ ·) := List.sorted_insertionSort _ lats
    have hp90 : p90Latency lats = (sortLatencies lats).headD 0 := by
      unfold p90Latency
      rw [if_pos hlen, hidx, if_pos rfl]
    obtain ⟨y, ys, hys⟩ : ∃ y ys, sortLatencies lats = y :: ys := by
      cases hsort : sortLatencies lats with
      | nil =>
        exact absurd (hperm.symm.length_eq) (by simp [hsort, List.length_eq_zero, hne])
      | cons y ys => exact ⟨y, ys, rfl⟩
    have hhead : p90Latency lats = y := by rw [hp90, hys]; rfl
    have hycons := (List.sorted_cons.mp (hys ▸ hsorted))
    constructor
    · rw [hhead]
      exact hperm.mem_iff.mp (by simp [hys])
    · intro x hx
      rw [hhead]
      have hx2 : x ∈ y :: ys := hys ▸ hperm.symm.mem_iff.mp hx
      rcases List.mem_cons.mp hx2 with hxy | hxys
      · exact le_of_eq hxy.symm
      · exact hycons.1 x hxys
  · intro lats hidx
    have hlen : 0 < lats.length := by
      by_contra hc
      have : lats.length = 0 := by omega
      simp [this] at hidx
    refine ⟨sortLatencies lats, List.perm_insertionSort _ lats,
      List.sorted_insertionSort _ lats, ?_⟩
    unfold p90Latency
    rw [if_pos hlen, if_neg hidx]

theorem latency_p90_nearest_rank_witness :
    (([5] : List Int) ≠ [] ∧ 9 * ([5] : List Int).length / 10 = 0 ∧
      (p90Latency [5] ∈ ([5] : List Int) ∧ ∀ x ∈ ([5] : List Int), p90Latency [5] ≤ x)) ∧
    (9 * ([3, 1, 2, 9, 4, 5, 6, 8, 7, 10] : List Int).length / 10 ≠ 0 ∧
      ∃ sorted : List Int, sorted.Perm ([3, 1, 2, 9, 4, 5, 6, 8, 7, 10] : List Int) ∧
        sorted.Sorted (· ≤ ·) ∧
        p90Latency [3, 1, 2, 9, 4, 5, 6, 8, 7, 10] =
          sorted.getD (9 * ([3, 1, 2, 9, 4, 5, 6, 8, 7, 10] : List Int).length / 10 - 1) 0) :=
  ⟨⟨by decide, by decide,
    latency_p90_nearest_rank.2.1 [5] (by decide) (by decide)⟩,
   ⟨by decide,
    latency_p90_nearest_rank.2.2.1 [3, 1, 2, 9, 4, 5, 6, 8, 7, 10] (by decide)⟩⟩

end RelayUtil
